import Mathlib

/-!
# Verification of `scripts/run_static_analysis.py` (bluestl)

A shallow embedding of the static-analysis runner script: the line-oriented
clang-tidy output normalizer, the cppcheck XML normalizer, the clang-analyzer
plist normalizer, and the summary aggregation (`generate_summary_report`).

Python strings are modelled as Lean `String`; the string primitives the script
uses (`str.split` on a single character, substring containment `in`,
`str.strip`, `int(...)`) are given explicit executable models on `List Char`.
Python exceptions are modelled with `Except Unit`: a caught exception is an
explicit `match` on the `Except` value, an uncaught one propagates as
`.error`.
-/

namespace StaticAnalysis

/-! ## Python string primitives -/

/-- Model of Python `s.split(sep)` for a single-character separator `sep`:
splits at every occurrence, keeping empty pieces (`"a::b" → ["a","","b"]`,
`"" → [""]`). -/
def pySplitChar (sep : Char) : List Char → List (List Char)
  | [] => [[]]
  | c :: rest =>
    if c = sep then [] :: pySplitChar sep rest
    else
      match pySplitChar sep rest with
      | [] => [[c]]
      | h :: t => (c :: h) :: t

/-- `leadsWith pat s` is true when `pat` occurs at the start of `s`. -/
def leadsWith : List Char → List Char → Bool
  | [], _ => true
  | _ :: _, [] => false
  | p :: ps, c :: cs => p = c && leadsWith ps cs

/-- Model of Python `pat in s` (substring containment). -/
def pyContainsList (pat : List Char) : List Char → Bool
  | [] => leadsWith pat []
  | c :: rest => leadsWith pat (c :: rest) || pyContainsList pat rest

/-- Model of Python `s.strip()` (remove leading and trailing whitespace). -/
def pyStripList (cs : List Char) : List Char :=
  (((cs.dropWhile Char.isWhitespace).reverse.dropWhile Char.isWhitespace)).reverse

/-- Base-10 value of a digit string. -/
def digitsToNat (ds : List Char) : Nat :=
  ds.foldl (fun n c => n * 10 + (c.toNat - 48)) 0

/-- Model of Python `int(s)` on a string: optional surrounding whitespace,
optional sign, then decimal digits; raises `ValueError` (`.error`) otherwise.
(Digit-group underscores and non-ASCII digits of CPython are not modelled;
no input in this development uses them.) -/
def pyIntList (cs : List Char) : Except Unit Int :=
  let t := pyStripList cs
  let neg : Bool := t.head? == some '-'
  let ds : List Char := if t.head? == some '-' || t.head? == some '+' then t.tail else t
  if ds ≠ [] ∧ ds.all Char.isDigit then
    .ok ((if neg then -1 else 1) * (digitsToNat ds : Int))
  else
    .error ()

/-- `int(s)` on a Lean `String`. -/
def pyInt (s : String) : Except Unit Int :=
  pyIntList s.data

/-- Python `pat in s` on Lean `String`s. -/
def pyContainsSub (s pat : String) : Bool :=
  pyContainsList pat.data s.data

/-- Python `s.split(sep)` (single-character `sep`) on Lean `String`s. -/
def pySplit (s : String) (sep : Char) : List String :=
  (pySplitChar sep s.data).map (fun cs => (⟨cs⟩ : String))

/-- Python `s.strip()` on Lean `String`s. -/
def pyStrip (s : String) : String :=
  ⟨pyStripList s.data⟩

/-! ## Data model

An issue dictionary as built by the normalizers
(`{'file': ..., 'line': ..., 'column': ..., 'severity': ..., 'message': ...,
'rule': ...}`), and a tool-result dictionary
(`{'tool': ..., 'issues_count': ..., 'issues': ...}`; the `timestamp` key
plays no role in the verified claims and is omitted). -/

structure Issue where
  file : String
  line : Int
  column : Int
  severity : String
  message : String
  rule : String
deriving DecidableEq, Repr

structure ToolResult where
  tool : String
  issues_count : Nat
  issues : List Issue
deriving DecidableEq, Repr

/-! ## Line-oriented normalizer (`run_clang_tidy` helpers) -/

/-- `_extract_line_number`: `int(line.split(':')[1])`, with
`except (IndexError, ValueError): return 0`. -/
def extract_line_number (l : String) : Int :=
  match (pySplit l ':').get? 1 with
  | none => 0
  | some t =>
    match pyInt t with
    | .ok n => n
    | .error _ => 0

/-- `_extract_column_number`: `int(line.split(':')[2])`, with
`except (IndexError, ValueError): return 0`. -/
def extract_column_number (l : String) : Int :=
  match (pySplit l ':').get? 2 with
  | none => 0
  | some t =>
    match pyInt t with
    | .ok n => n
    | .error _ => 0

/-- `_extract_rule_name`: `line.split('[')[1].split(']')[0]` when both `'['`
and `']'` occur in the line, else `'unknown'`.  The index `[1]` cannot fail
under the guard, so it is rendered with `getD`; `[0]` of a split is always
present and is rendered with `headD`. -/
def extract_rule_name (l : String) : String :=
  if l.data.contains '[' && l.data.contains ']' then
    ⟨((pySplitChar ']' ((pySplitChar '[' l.data).getD 1 [])).headD [])⟩
  else
    "unknown"

/-- The filter in `run_clang_tidy`:
`if 'warning:' in line or 'error:' in line`. -/
def lineHasIssue (l : String) : Bool :=
  pyContainsSub l "warning:" || pyContainsSub l "error:"

/-- The issue dictionary `run_clang_tidy` appends for a matching line. -/
def clangTidyIssue (file l : String) : Issue :=
  { file := file
    line := extract_line_number l
    column := extract_column_number l
    severity := if pyContainsSub l "warning:" then "warning" else "error"
    message := pyStrip l
    rule := extract_rule_name l }

/-- The issue list built by `run_clang_tidy`'s loop: for each analysed file
(paired with the captured stderr text), split stderr into lines and keep the
matching ones.  (The Python guard `if result.stderr:` only skips an empty
string, whose sole line matches no filter, so it is absorbed by the filter.) -/
def clangTidyIssues (outputs : List (String × String)) : List Issue :=
  outputs.flatMap fun fo =>
    (((pySplitChar '\n' fo.2.data).map (fun cs => (⟨cs⟩ : String))).filter
        lineHasIssue).map
      (clangTidyIssue fo.1)

/-- The `result_data` dictionary constructed at the end of `run_clang_tidy`:
`issues_count` is `len(issues)`. -/
def run_clang_tidy (outputs : List (String × String)) : ToolResult :=
  { tool := "clang-tidy"
    issues_count := (clangTidyIssues outputs).length
    issues := clangTidyIssues outputs }

/-! ## Structured-document (cppcheck XML) normalizer -/

/-- An XML element: tag, attributes, child elements
(`xml.etree.ElementTree` view). -/
inductive Elem where
  | mk (tag : String) (attrs : List (String × String)) (children : List Elem)

def Elem.tag : Elem → String
  | .mk t _ _ => t

def Elem.attrs : Elem → List (String × String)
  | .mk _ a _ => a

def Elem.children : Elem → List Elem
  | .mk _ _ cs => cs

/-- `e.get(k)`: the value of attribute `k`, if present. -/
def Elem.attr (e : Elem) (k : String) : Option String :=
  (e.attrs.find? (fun p => p.1 = k)).map Prod.snd

/-- `e.get(k, d)` with a string default. -/
def Elem.attrD (e : Elem) (k d : String) : String :=
  (e.attr k).getD d

/-- `e.find(t)`: the first direct child with tag `t`. -/
def Elem.findChild (e : Elem) (t : String) : Option Elem :=
  e.children.find? (fun c => c.tag = t)

mutual

/-- `root.findall('.//' + t)`: all descendants with tag `t`, in document
order (the root itself is not a descendant). -/
def Elem.findAllDesc (t : String) : Elem → List Elem
  | .mk _ _ cs => findAllDescList t cs

def findAllDescList (t : String) : List Elem → List Elem
  | [] => []
  | c :: cs => (if c.tag = t then [c] else []) ++ c.findAllDesc t ++ findAllDescList t cs

end

/-- `int(location.get('line', 0))`: when the attribute is missing the Python
default `0` (already an `int`) is converted, which always succeeds; when
present, `int(...)` on the attribute string may raise. -/
def pyIntAttr (v : Option String) : Except Unit Int :=
  match v with
  | none => .ok 0
  | some s => pyInt s

/-- One iteration of the `for error in root.findall('.//error')` loop body:
`none` when the entry has no `location` child (nothing appended), otherwise
the issue dictionary; the `int(...)` conversions are NOT inside any
`try/except`, so their failure propagates as `.error`. -/
def cppcheckIssueOfError (e : Elem) : Except Unit (Option Issue) :=
  match e.findChild "location" with
  | none => .ok none
  | some loc =>
    match pyIntAttr (loc.attr "line") with
    | .error u => .error u
    | .ok ln =>
      match pyIntAttr (loc.attr "column") with
      | .error u => .error u
      | .ok col =>
        .ok (some
          { file := loc.attrD "file" ""
            line := ln
            column := col
            severity := e.attrD "severity" "unknown"
            message := e.attrD "msg" ""
            rule := e.attrD "id" "unknown" })

/-- The whole `for error in ...` loop over the found error elements: issues
are appended in document order; an uncaught exception in any iteration
aborts the loop (and escapes `_parse_cppcheck_xml`, whose `except` clause
only catches `ET.ParseError`). -/
def parseErrors : List Elem → Except Unit (List Issue)
  | [] => .ok []
  | e :: es =>
    match cppcheckIssueOfError e with
    | .error u => .error u
    | .ok none => parseErrors es
    | .ok (some i) =>
      match parseErrors es with
      | .error u => .error u
      | .ok is => .ok (i :: is)

/-- `_parse_cppcheck_xml`: the input is the outcome of `ET.parse` —
`none` models a document that fails to parse (`ET.ParseError`), which the
function catches, printing a warning and returning the (empty) issue list;
`some root` models a well-formed document. -/
def parse_cppcheck_xml (x : Option Elem) : Except Unit (List Issue) :=
  match x with
  | none => .ok []
  | some root => parseErrors (root.findAllDesc "error")

/-- The `result_data` dictionary of `run_cppcheck` on the success path:
`issues_count` is `len(issues)`. -/
def run_cppcheck (x : Option Elem) : Except Unit ToolResult :=
  match parse_cppcheck_xml x with
  | .error u => .error u
  | .ok is => .ok { tool := "cppcheck", issues_count := is.length, issues := is }

/-- The dictionary returned by `run_cppcheck`'s
`except subprocess.CalledProcessError` branch:
`{'tool': 'cppcheck', 'issues_count': 0, 'issues': []}`. -/
def run_cppcheck_failure : ToolResult :=
  { tool := "cppcheck", issues_count := 0, issues := [] }

/-! ## clang-analyzer runner -/

/-- `_parse_clang_analyzer_plist`: the script's simplified implementation
returns the empty list for every plist file. -/
def parse_clang_analyzer_plist (_p : Unit) : List Issue :=
  []

/-- The `result_data` dictionary of `run_clang_analyzer`:
issues extended from each plist file's parse, `issues_count` is
`len(issues)`. -/
def run_clang_analyzer (plists : List Unit) : ToolResult :=
  let is := plists.flatMap parse_clang_analyzer_plist
  { tool := "clang-analyzer", issues_count := is.length, issues := is }

/-! ## Summary aggregation (`generate_summary_report`) -/

/-- `total_issues = sum(result.get('issues_count', 0) for result in
analysis_results)`. -/
def totalIssues (results : List ToolResult) : Nat :=
  (results.map ToolResult.issues_count).sum

/-- All issues of a result list, in the visit order of the nested
classification loop. -/
def allIssues (results : List ToolResult) : List Issue :=
  results.flatMap ToolResult.issues

/-- The initial `severity_counts` dictionary, in insertion order. -/
def severityInit : List (String × Nat) :=
  [("error", 0), ("warning", 0), ("style", 0), ("performance", 0), ("portability", 0)]

/-- The keys of `severity_counts`. -/
def severityKeys : List String :=
  ["error", "warning", "style", "performance", "portability"]

/-- `if severity in severity_counts: severity_counts[severity] += 1` on an
insertion-ordered association list: bump the first entry with the key, do
nothing when the key is absent. -/
def bumpIfPresent (k : String) : List (String × Nat) → List (String × Nat)
  | [] => []
  | p :: t => if p.1 = k then (p.1, p.2 + 1) :: t else p :: bumpIfPresent k t

/-- `rule_counts[rule] = rule_counts.get(rule, 0) + 1` on an
insertion-ordered association list: bump the first entry with the key, or
append a fresh `(k, 1)` entry at the end (Python dicts preserve insertion
order, so a new rule is recorded at its first appearance). -/
def bumpCount (k : String) : List (String × Nat) → List (String × Nat)
  | [] => [(k, 1)]
  | p :: t => if p.1 = k then (p.1, p.2 + 1) :: t else p :: bumpCount k t

/-- `m.get(k, 0)` on an insertion-ordered association list: the value at the
first entry with the key, `0` when absent. -/
def lookupCount : List (String × Nat) → String → Nat
  | [], _ => 0
  | p :: t, k => if p.1 = k then p.2 else lookupCount t k

/-- The body of the classification loop, updating both dictionaries for one
issue. -/
def summaryStep (acc : List (String × Nat) × List (String × Nat)) (i : Issue) :
    List (String × Nat) × List (String × Nat) :=
  (bumpIfPresent i.severity acc.1, bumpCount i.rule acc.2)

/-- The nested loop
`for result in analysis_results: for issue in result.get('issues', []): ...`
accumulating `severity_counts` and `rule_counts`. -/
def summaryFold (results : List ToolResult) :
    List (String × Nat) × List (String × Nat) :=
  results.foldl (fun acc r => r.issues.foldl summaryStep acc) (severityInit, [])

/-- The final `severity_counts` dictionary. -/
def severity_counts (results : List ToolResult) : List (String × Nat) :=
  (summaryFold results).1

/-- The final `rule_counts` dictionary, in first-appearance order. -/
def rule_counts (results : List ToolResult) : List (String × Nat) :=
  (summaryFold results).2

/-- Sum of all buckets of a counts dictionary. -/
def bucketSum (m : List (String × Nat)) : Nat :=
  (m.map Prod.snd).sum

/-- Stable insertion into a count-descending list: the inserted element goes
before the first strictly smaller count and after equal ones coming from
earlier positions. -/
def insertDescBySnd (x : String × Nat) : List (String × Nat) → List (String × Nat)
  | [] => [x]
  | y :: t => if y.2 ≤ x.2 then x :: y :: t else y :: insertDescBySnd x t

/-- Model of Python `sorted(items, key=lambda x: x[1], reverse=True)`:
a stable sort by count descending (CPython's sort is stable and `reverse=True`
preserves stability; any stable descending sort computes the same list, here
insertion sort). -/
def sortDescBySnd : List (String × Nat) → List (String × Nat)
  | [] => []
  | x :: t => insertDescBySnd x (sortDescBySnd t)

/-- `top_rules = sorted(rule_counts.items(), key=lambda x: x[1],
reverse=True)[:5]`. -/
def top_rules (results : List ToolResult) : List (String × Nat) :=
  (sortDescBySnd (rule_counts results)).take 5

/-! ## Spec-side definitions for the amended C1 statement -/

/-- The characters after the first occurrence of `sep` (everything, when
`sep` does not occur). -/
def afterFirst (sep : Char) : List Char → List Char
  | [] => []
  | c :: rest => if c = sep then rest else afterFirst sep rest

/-- The rule id as amended: the text after the first `'['`, truncated at the
next `'['` and then at the next `']'`. -/
def ruleFromFirstBracket (l : String) : String :=
  ⟨(((afterFirst '[' l.data).takeWhile (fun c => !(c == '['))).takeWhile
      (fun c => !(c == ']')))⟩

/-! ## Lemmas: splitting -/

theorem pySplitChar_ne_nil (sep : Char) (cs : List Char) : pySplitChar sep cs ≠ [] := by
  induction cs with
  | nil => simp [pySplitChar]
  | cons c rest ih =>
    simp only [pySplitChar]
    split
    · simp
    · rcases h : pySplitChar sep rest with _ | ⟨hd, tl⟩
      · exact absurd h ih
      · simp [h]

theorem headD_pySplitChar (sep : Char) (cs : List Char) :
    (pySplitChar sep cs).headD [] = cs.takeWhile (fun c => !(c == sep)) := by
  induction cs with
  | nil => simp [pySplitChar]
  | cons c rest ih =>
    simp only [pySplitChar, List.takeWhile_cons]
    by_cases hc : c = sep
    · simp [hc]
    · simp only [if_neg hc]
      rcases h : pySplitChar sep rest with _ | ⟨hd, tl⟩
      · exact absurd h (pySplitChar_ne_nil sep rest)
      · rw [h] at ih
        simp only [List.headD_cons] at ih
        simp [hc, ih]

theorem pySplitChar_eq_of_mem (sep : Char) (cs : List Char) (h : sep ∈ cs) :
    pySplitChar sep cs =
      cs.takeWhile (fun c => !(c == sep)) :: pySplitChar sep (afterFirst sep cs) := by
  induction cs with
  | nil => simp at h
  | cons c rest ih =>
    by_cases hc : c = sep
    · subst hc
      simp [pySplitChar, afterFirst, List.takeWhile_cons]
    · have hr : sep ∈ rest := by
        rcases List.mem_cons.mp h with h1 | h1
        · exact absurd h1.symm hc
        · exact h1
      simp only [pySplitChar, if_neg hc, ih hr, List.takeWhile_cons, afterFirst]
      simp [hc, Ne.symm hc]

/-! ## Lemmas: integer parsing -/

/-- A successfully parsed negative value can only come from a string whose
stripped form starts with `'-'`. -/
theorem pyIntList_neg (cs : List Char) (n : Int) (h : pyIntList cs = .ok n)
    (hn : n < 0) : (pyStripList cs).head? = some '-' := by
  by_cases hh : (pyStripList cs).head? = some '-'
  · exact hh
  · exfalso
    have hneg : ((pyStripList cs).head? == some '-') = false := by
      simp [hh]
    unfold pyIntList at h
    simp only [hneg, Bool.false_or, Bool.false_eq_true, if_false, one_mul] at h
    split at h
    all_goals split at h
    all_goals try exact Except.noConfusion h
    all_goals injection h with h2
    all_goals omega

theorem pyInt_neg (s : String) (n : Int) (h : pyInt s = .ok n) (hn : n < 0) :
    (pyStripList s.data).head? = some '-' := by
  exact pyIntList_neg s.data n h hn

/-- A negative extracted line number reproduces a leading `'-'` in the
colon-separated token at index 1. -/
theorem extract_line_number_neg (l : String) (h : extract_line_number l < 0) :
    ∃ t, (pySplit l ':').get? 1 = some t ∧ (pyStripList t.data).head? = some '-' := by
  unfold extract_line_number at h
  rcases hg : (pySplit l ':').get? 1 with _ | t
  · rw [hg] at h; dsimp only at h; omega
  · rw [hg] at h; dsimp only at h
    rcases hp : pyInt t with u | n
    · rw [hp] at h; dsimp only at h; omega
    · rw [hp] at h; dsimp only at h
      exact ⟨t, rfl, pyInt_neg t n hp h⟩

/-- A negative extracted column number reproduces a leading `'-'` in the
colon-separated token at index 2. -/
theorem extract_column_number_neg (l : String) (h : extract_column_number l < 0) :
    ∃ t, (pySplit l ':').get? 2 = some t ∧ (pyStripList t.data).head? = some '-' := by
  unfold extract_column_number at h
  rcases hg : (pySplit l ':').get? 2 with _ | t
  · rw [hg] at h; dsimp only at h; omega
  · rw [hg] at h; dsimp only at h
    rcases hp : pyInt t with u | n
    · rw [hp] at h; dsimp only at h; omega
    · rw [hp] at h; dsimp only at h
      exact ⟨t, rfl, pyInt_neg t n hp h⟩

/-- The cppcheck attribute conversion is non-negative unless the attribute is
present and its stripped value starts with `'-'`. -/
theorem pyIntAttr_neg (v : Option String) (n : Int) (h : pyIntAttr v = .ok n)
    (hn : n < 0) : ∃ s, v = some s ∧ (pyStripList s.data).head? = some '-' := by
  rcases v with _ | s
  · simp [pyIntAttr] at h
    omega
  · exact ⟨s, rfl, pyInt_neg s n h hn⟩

/-! ## Lemmas: the classification fold -/

theorem foldl_pair_split {α β γ : Type} (f : α → γ → α) (g : β → γ → β)
    (l : List γ) (a : α) (b : β) :
    l.foldl (fun acc i => (f acc.1 i, g acc.2 i)) (a, b) = (l.foldl f a, l.foldl g b) := by
  induction l generalizing a b with
  | nil => rfl
  | cons x xs ih => simp only [List.foldl_cons, ih]

/-- The nested loop over results and issues is the flat fold over
`allIssues`, componentwise. -/
theorem summaryFold_eq (results : List ToolResult) :
    summaryFold results =
      ((allIssues results).foldl (fun acc i => bumpIfPresent i.severity acc) severityInit,
       (allIssues results).foldl (fun acc i => bumpCount i.rule acc) []) := by
  unfold summaryFold allIssues
  rw [List.flatMap_def,
    ← foldl_pair_split (fun acc i => bumpIfPresent i.severity acc)
        (fun acc i => bumpCount i.rule acc) ((results.map ToolResult.issues).flatten)
        severityInit []]
  rw [List.foldl_flatten, List.foldl_map]
  rfl

theorem bumpIfPresent_keys (k : String) (m : List (String × Nat)) :
    (bumpIfPresent k m).map Prod.fst = m.map Prod.fst := by
  induction m with
  | nil => rfl
  | cons p t ih =>
    simp only [bumpIfPresent]
    split
    · simp
    · simp [ih]

theorem map_bumpIfPresent (k : String) (c : String → Nat) (m : List (String × Nat))
    (hm : (m.map Prod.fst).Nodup) :
    (bumpIfPresent k m).map (fun p => (p.1, p.2 + c p.1)) =
      m.map (fun p => (p.1, p.2 + c p.1 + if p.1 = k then 1 else 0)) := by
  induction m with
  | nil => rfl
  | cons p t ih =>
    simp only [List.map_cons, List.nodup_cons] at hm
    by_cases hp : p.1 = k
    · simp only [bumpIfPresent, if_pos hp, List.map_cons, if_pos hp, List.cons_eq_cons]
      refine ⟨by simp only [Prod.mk.injEq, true_and]; omega, ?_⟩
      apply List.map_congr_left
      intro q hq
      have hqk : q.1 ≠ k := by
        intro hc
        exact hm.1 (hp ▸ hc ▸ List.mem_map_of_mem Prod.fst hq)
      simp [hqk]
    · simp only [bumpIfPresent, if_neg hp, List.map_cons, if_neg hp, List.cons_eq_cons]
      exact ⟨rfl, ih hm.2⟩

theorem sevFold_map (issues : List Issue) (m : List (String × Nat))
    (hm : (m.map Prod.fst).Nodup) :
    issues.foldl (fun acc i => bumpIfPresent i.severity acc) m =
      m.map (fun p => (p.1, p.2 + issues.countP (fun i => i.severity = p.1))) := by
  induction issues generalizing m with
  | nil => simp
  | cons i is ih =>
    rw [List.foldl_cons, ih (bumpIfPresent i.severity m)
          (by rw [bumpIfPresent_keys]; exact hm)]
    have h2 := map_bumpIfPresent i.severity
      (fun s => is.countP (fun j => j.severity = s)) m hm
    dsimp only at h2
    rw [h2]
    apply List.map_congr_left
    intro p _
    have : is.countP (fun j => j.severity = p.1) + (if p.1 = i.severity then 1 else 0) =
        (i :: is).countP (fun j => j.severity = p.1) := by
      rw [List.countP_cons]
      by_cases h : p.1 = i.severity
      · simp [h]
      · simp [h, Ne.symm h]
    rw [← this]
    simp [Nat.add_assoc]

/-- Closed form of `severity_counts`: each of the five buckets counts exactly
the issues whose severity equals its key. -/
theorem severity_counts_eq (results : List ToolResult) :
    severity_counts results =
      severityKeys.map
        (fun s => (s, (allIssues results).countP (fun i => i.severity = s))) := by
  unfold severity_counts
  rw [summaryFold_eq]
  dsimp only
  rw [sevFold_map _ severityInit (by decide)]
  simp [severityInit, severityKeys]

theorem countP_or_disjoint {α : Type} (p q : α → Bool) (l : List α)
    (h : ∀ a, ¬(p a = true ∧ q a = true)) :
    l.countP (fun a => p a || q a) = l.countP p + l.countP q := by
  induction l with
  | nil => simp
  | cons a t ih =>
    simp only [List.countP_cons, ih]
    rcases hp : p a with _ | _ <;> rcases hq : q a with _ | _ <;> simp_all <;> omega

theorem sum_countP_keys (ks : List String) (l : List Issue) (hk : ks.Nodup) :
    (ks.map (fun s => l.countP (fun i => i.severity = s))).sum =
      l.countP (fun i => ks.contains i.severity) := by
  induction ks with
  | nil => simp [List.countP_eq_zero]
  | cons k ks ih =>
    simp only [List.nodup_cons] at hk
    have hfun : (fun (i : Issue) => (k :: ks).contains i.severity) =
        (fun i => (i.severity == k) || ks.contains i.severity) := by
      funext i
      rw [List.contains_cons]
    have hbeq : (fun (i : Issue) => (i.severity == k)) =
        (fun i => decide (i.severity = k)) := by
      funext i
      by_cases h : i.severity = k <;> simp [h]
    have hd : l.countP (fun i => (i.severity == k) || ks.contains i.severity) =
        l.countP (fun i => (i.severity == k)) + l.countP (fun i => ks.contains i.severity) := by
      apply countP_or_disjoint
      intro i hi
      rcases hi with ⟨h1, h2⟩
      rw [beq_iff_eq] at h1
      rw [h1] at h2
      have hmem : k ∈ ks := by simpa using h2
      exact hk.1 hmem
    rw [hfun, hd, hbeq]
    simp [List.map_cons, List.sum_cons, ih hk.2]

/-- When every result caches its issue count correctly, `total_issues` counts
every issue once. -/
theorem totalIssues_eq_length (results : List ToolResult)
    (h : ∀ r ∈ results, r.issues_count = r.issues.length) :
    totalIssues results = (allIssues results).length := by
  unfold totalIssues allIssues
  rw [List.flatMap_def, List.length_flatten, List.map_map]
  exact congrArg List.sum (List.map_congr_left h)

theorem length_countP_split {α : Type} (p : α → Bool) (l : List α) :
    l.length = l.countP p + l.countP (fun a => !(p a)) := by
  induction l with
  | nil => simp
  | cons a t ih =>
    simp only [List.length_cons, List.countP_cons, ih]
    rcases hp : p a with _ | _ <;> simp [hp] <;> omega

/-! ## Lemmas: rule counts -/

theorem lookupCount_bumpCount (k r : String) (m : List (String × Nat)) :
    lookupCount (bumpCount k m) r = lookupCount m r + if r = k then 1 else 0 := by
  induction m with
  | nil =>
    by_cases h : r = k
    · subst h
      simp [bumpCount, lookupCount]
    · simp [bumpCount, lookupCount, h, show ¬(k = r) from fun e => h e.symm]
  | cons p t ih =>
    by_cases hpk : p.1 = k
    · simp only [bumpCount, if_pos hpk]
      by_cases hpr : p.1 = r
      · have hrk : r = k := by rw [← hpr, hpk]
        simp [lookupCount, hpr, hrk]
      · have hrk : ¬(r = k) := fun e => hpr (by rw [hpk, ← e])
        simp [lookupCount, hpr, hrk]
    · simp only [bumpCount, if_neg hpk]
      by_cases hpr : p.1 = r
      · have hrk : ¬(r = k) := fun e => hpk (by rw [hpr, e])
        simp [lookupCount, hpr, hrk]
      · simp [lookupCount, hpr, ih]

theorem ruleFold_lookup (issues : List Issue) (m : List (String × Nat)) (r : String) :
    lookupCount (issues.foldl (fun acc i => bumpCount i.rule acc) m) r =
      lookupCount m r + issues.countP (fun i => i.rule = r) := by
  induction issues generalizing m with
  | nil => simp
  | cons i is ih =>
    rw [List.foldl_cons, ih, lookupCount_bumpCount, List.countP_cons]
    by_cases h : i.rule = r
    · simp [h]
      omega
    · have h2 : ¬(r = i.rule) := fun e => h e.symm
      simp [h, h2]

/-- Closed form of a `rule_counts` entry: the number of issues carrying that
rule. -/
theorem rule_counts_lookup (results : List ToolResult) (r : String) :
    lookupCount (rule_counts results) r =
      (allIssues results).countP (fun i => i.rule = r) := by
  unfold rule_counts
  rw [summaryFold_eq]
  dsimp only
  rw [ruleFold_lookup]
  simp [lookupCount]

/-! ## Lemmas: the stable descending sort behind `top_rules` -/

theorem insertDescBySnd_perm (x : String × Nat) (l : List (String × Nat)) :
    (insertDescBySnd x l).Perm (x :: l) := by
  induction l with
  | nil => exact List.Perm.refl _
  | cons y t ih =>
    by_cases h : y.2 ≤ x.2
    · simp only [insertDescBySnd, if_pos h]
      exact List.Perm.refl _
    · simp only [insertDescBySnd, if_neg h]
      exact (ih.cons y).trans (List.Perm.swap x y t)

theorem sortDescBySnd_perm (l : List (String × Nat)) : (sortDescBySnd l).Perm l := by
  induction l with
  | nil => exact List.Perm.refl _
  | cons x t ih =>
    exact (insertDescBySnd_perm x (sortDescBySnd t)).trans (ih.cons x)

theorem insertDescBySnd_pairwise (x : String × Nat) (l : List (String × Nat))
    (h : l.Pairwise (fun a b => b.2 ≤ a.2)) :
    (insertDescBySnd x l).Pairwise (fun a b => b.2 ≤ a.2) := by
  induction l with
  | nil => simp [insertDescBySnd]
  | cons y t ih =>
    rcases List.pairwise_cons.mp h with ⟨hy, ht⟩
    by_cases hc : y.2 ≤ x.2
    · simp only [insertDescBySnd, if_pos hc]
      refine List.pairwise_cons.mpr ⟨?_, h⟩
      intro z hz
      rcases List.mem_cons.mp hz with hz | hz
      · exact hz ▸ hc
      · exact le_trans (hy z hz) hc
    · simp only [insertDescBySnd, if_neg hc]
      refine List.pairwise_cons.mpr ⟨?_, ih ht⟩
      intro z hz
      have hz2 : z ∈ x :: t := ((insertDescBySnd_perm x t).mem_iff).mp hz
      rcases List.mem_cons.mp hz2 with hz2 | hz2
      · exact hz2 ▸ le_of_not_le hc
      · exact hy z hz2

theorem sortDescBySnd_pairwise (l : List (String × Nat)) :
    (sortDescBySnd l).Pairwise (fun a b => b.2 ≤ a.2) := by
  induction l with
  | nil => simp [sortDescBySnd]
  | cons x t ih => exact insertDescBySnd_pairwise x (sortDescBySnd t) ih

/-- Stability of the insertion step, phrased through filtering on a count
value: inserting `x` never reorders the elements of any fixed count class,
and places `x` in front of its own class. -/
theorem filter_insertDescBySnd (x : String × Nat) (l : List (String × Nat)) (c : Nat) :
    (insertDescBySnd x l).filter (fun p => p.2 = c) =
      if x.2 = c then x :: l.filter (fun p => p.2 = c)
      else l.filter (fun p => p.2 = c) := by
  induction l with
  | nil =>
    by_cases hx : x.2 = c <;> simp [insertDescBySnd, List.filter, hx]
  | cons y t ih =>
    by_cases hc : y.2 ≤ x.2
    · simp only [insertDescBySnd, if_pos hc]
      by_cases hx : x.2 = c <;> simp [List.filter_cons, hx]
    · simp only [insertDescBySnd, if_neg hc]
      by_cases hx : x.2 = c
      · have hy : ¬(y.2 = c) := by omega
        simp [List.filter_cons, hx, hy, ih]
      · simp [List.filter_cons, hx, ih]

/-- Stability of the sort: every count class keeps its input order
(first-appearance order of the accumulated dictionary). -/
theorem filter_sortDescBySnd (l : List (String × Nat)) (c : Nat) :
    (sortDescBySnd l).filter (fun p => p.2 = c) = l.filter (fun p => p.2 = c) := by
  induction l with
  | nil => rfl
  | cons x t ih =>
    rw [show sortDescBySnd (x :: t) = insertDescBySnd x (sortDescBySnd t) from rfl,
      filter_insertDescBySnd]
    by_cases hx : x.2 = c <;> simp [List.filter_cons, hx, ih]

/-! ## Lemmas: rule-name extraction and the XML loop -/

/-- Closed form of `_extract_rule_name`: under the guard, the result is the
text after the first `'['`, truncated at the next `'['` and then at the next
`']'`. -/
theorem extract_rule_name_eq (l : String) :
    extract_rule_name l =
      if l.data.contains '[' && l.data.contains ']' then ruleFromFirstBracket l
      else "unknown" := by
  by_cases hb : (l.data.contains '[' && l.data.contains ']') = true
  · rw [extract_rule_name, if_pos hb, if_pos hb]
    have m1 : '[' ∈ l.data := by
      have h1 := (Bool.and_eq_true _ _).mp hb |>.1
      simpa using h1
    obtain ⟨r0, rtl, hrest⟩ :=
      List.exists_cons_of_ne_nil (pySplitChar_ne_nil '[' (afterFirst '[' l.data))
    have hr0 : r0 = (afterFirst '[' l.data).takeWhile (fun c => !(c == '[')) := by
      have hh := headD_pySplitChar '[' (afterFirst '[' l.data)
      rw [hrest] at hh
      simpa using hh
    rw [pySplitChar_eq_of_mem '[' l.data m1, hrest]
    simp only [List.getD_cons_succ, List.getD_cons_zero]
    rw [headD_pySplitChar ']' r0, hr0]
    rfl
  · rw [extract_rule_name, if_neg hb, if_neg hb]

/-- The XML error loop ignores entries without a `location` child: processing
a list of error elements is processing the sublist of located ones. -/
theorem parseErrors_filter (es : List Elem) :
    parseErrors es =
      parseErrors (es.filter (fun e => (e.findChild "location").isSome)) := by
  induction es with
  | nil => rfl
  | cons e es ih =>
    by_cases hl : (e.findChild "location").isSome = true
    · rw [show (e :: es).filter (fun e => (e.findChild "location").isSome) =
          e :: es.filter (fun e => (e.findChild "location").isSome) by
        simp [List.filter_cons, hl]]
      rcases hce : cppcheckIssueOfError e with u | oi
      · simp [parseErrors, hce]
      · rcases oi with _ | i <;> simp [parseErrors, hce, ih]
    · have hnone : e.findChild "location" = none := by
        rcases hfc : e.findChild "location" with _ | c
        · rfl
        · rw [hfc] at hl
          simp at hl
      rw [show (e :: es).filter (fun e => (e.findChild "location").isSome) =
          es.filter (fun e => (e.findChild "location").isSome) by
        simp [List.filter_cons, hnone]]
      have hce : cppcheckIssueOfError e = .ok none := by
        simp [cppcheckIssueOfError, hnone]
      simp [parseErrors, hce, ih]

/-! ## Claim theorems -/

/-- C1, counterexample: `"w warning: [x] a [y]"` contains `"warning:"`, so it
is a candidate line the normalizer processes end to end, and it carries two
bracketed segments; the produced IssueRecord's rule is `"x"`, the text after
the FIRST `'['`, not `"y"`, the text between the last `'['` and the following
`']'` as the claim states. -/
theorem claim_C1_counterexample :
    lineHasIssue "w warning: [x] a [y]" = true ∧
    (run_clang_tidy [("f", "w warning: [x] a [y]")]).issues =
      [{ file := "f", line := 0, column := 0, severity := "warning",
         message := "w warning: [x] a [y]", rule := "x" }] ∧
    extract_rule_name "w warning: [x] a [y]" ≠ "y" := by
  exact ⟨by decide, by decide, by decide⟩

/-- C1, amended: for every candidate line, the extracted rule id equals the
text after the first `'['`, truncated at the next `'['` and then at the next
`']'`, when both characters occur anywhere in the line, and the sentinel
`"unknown"` when either is absent. -/
theorem claim_C1_amended (l : String) :
    extract_rule_name l =
      if l.data.contains '[' && l.data.contains ']' then ruleFromFirstBracket l
      else "unknown" :=
  extract_rule_name_eq l

/-- C2: the claim that no normalizer raises on a malformed individual record
is the intended behaviour, but `_parse_cppcheck_xml` violates it: on a
well-formed document whose second error entry carries the non-numeric line
attribute `"abc"`, the uncaught `ValueError` from `int(...)` aborts the whole
batch (the first, well-formed entry is lost too), exactly the scenario the
claim requires to be non-fatal. -/
theorem claim_C2_code_bug :
    parse_cppcheck_xml (some (Elem.mk "results" []
      [Elem.mk "errors" []
        [Elem.mk "error" [("id", "ok1"), ("severity", "warning"), ("msg", "m1")]
          [Elem.mk "location" [("file", "a.cpp"), ("line", "3"), ("column", "4")] []],
         Elem.mk "error" [("id", "bad"), ("severity", "error"), ("msg", "m2")]
          [Elem.mk "location" [("file", "a.cpp"), ("line", "abc"), ("column", "1")] []]]])) =
      .error () := rfl

/-- C3, counterexample: a candidate line whose second colon-separated token is
the negative numeral `-5` makes the line-oriented normalizer produce an
IssueRecord with the negative line number `-5`, refuting non-negativity of
the `line` field. -/
theorem claim_C3_counterexample :
    (run_clang_tidy [("f", "f:-5:2: error: boom")]).issues =
      [{ file := "f", line := -5, column := 2, severity := "error",
         message := "f:-5:2: error: boom", rule := "unknown" }] ∧
    (-5 : Int) < 0 := by
  exact ⟨by decide, by decide⟩

/-- C3, amended: the `line` and `column` fields are integers with `0` as the
parse-failure/absence sentinel; they are negative only when the source token
(colon-separated token at index 1 or 2) or XML location attribute is itself a
negative numeral, i.e. starts with `'-'` after stripping — non-negativity is
not enforced by the code. -/
theorem claim_C3_amended :
    (∀ l : String, extract_line_number l < 0 →
      ∃ t, (pySplit l ':').get? 1 = some t ∧ (pyStripList t.data).head? = some '-') ∧
    (∀ l : String, extract_column_number l < 0 →
      ∃ t, (pySplit l ':').get? 2 = some t ∧ (pyStripList t.data).head? = some '-') ∧
    (∀ (v : Option String) (n : Int), pyIntAttr v = .ok n → n < 0 →
      ∃ s, v = some s ∧ (pyStripList s.data).head? = some '-') ∧
    pyIntAttr none = .ok 0 ∧
    extract_line_number "nocolon" = 0 := by
  exact ⟨extract_line_number_neg, extract_column_number_neg, pyIntAttr_neg, rfl, by decide⟩

/-- C3, amended, witness at the concrete line `"f:-5:2: error: boom"`. -/
theorem claim_C3_amended_witness :
    ∃ t, (pySplit "f:-5:2: error: boom" ':').get? 1 = some t ∧
      (pyStripList t.data).head? = some '-' :=
  claim_C3_amended.1 "f:-5:2: error: boom" (by decide)

/-- C4: every ToolResult constructed by the three tool runners (including the
cppcheck subprocess-failure fallback) caches `issues_count` equal to the
length of its `issues` list. -/
theorem claim_C4 :
    (∀ outs, (run_clang_tidy outs).issues_count = (run_clang_tidy outs).issues.length) ∧
    (∀ x r, run_cppcheck x = .ok r → r.issues_count = r.issues.length) ∧
    run_cppcheck_failure.issues_count = run_cppcheck_failure.issues.length ∧
    (∀ ps, (run_clang_analyzer ps).issues_count = (run_clang_analyzer ps).issues.length) := by
  refine ⟨fun outs => rfl, ?_, rfl, fun ps => rfl⟩
  intro x r h
  unfold run_cppcheck at h
  rcases hp : parse_cppcheck_xml x with u | is
  · rw [hp] at h
    exact Except.noConfusion h
  · rw [hp] at h
    dsimp only at h
    injection h with h2
    rw [← h2]

/-- C4, witness: the invariant instantiated on the successful cppcheck run
over an unparsable document. -/
theorem claim_C4_witness :
    run_cppcheck_failure.issues_count = run_cppcheck_failure.issues.length :=
  claim_C4.2.1 none run_cppcheck_failure rfl

/-- C5: `top_rules` is sorted by count descending, truncated to at most five
entries, returns the whole dictionary when it has at most five entries, and
keeps every tied count class in first-appearance order; in particular on the
accumulated counts `{A: 3, B: 3, C: 1}` with `A` seen first it is
`[A, B, C]`. -/
theorem claim_C5 :
    (∀ results : List ToolResult,
      (top_rules results).Pairwise (fun a b => b.2 ≤ a.2) ∧
      (top_rules results).length = min 5 (rule_counts results).length ∧
      ((rule_counts results).length ≤ 5 → (top_rules results).Perm (rule_counts results)) ∧
      (∀ c, (sortDescBySnd (rule_counts results)).filter (fun p => p.2 = c) =
        (rule_counts results).filter (fun p => p.2 = c))) ∧
    top_rules
      [{ tool := "t", issues_count := 7,
         issues := [{ file := "f", line := 1, column := 1, severity := "warning", message := "m", rule := "A" },
                    { file := "f", line := 2, column := 1, severity := "warning", message := "m", rule := "A" },
                    { file := "f", line := 3, column := 1, severity := "warning", message := "m", rule := "A" },
                    { file := "f", line := 4, column := 1, severity := "warning", message := "m", rule := "B" },
                    { file := "f", line := 5, column := 1, severity := "warning", message := "m", rule := "B" },
                    { file := "f", line := 6, column := 1, severity := "warning", message := "m", rule := "B" },
                    { file := "f", line := 7, column := 1, severity := "warning", message := "m", rule := "C" }] }] =
      [("A", 3), ("B", 3), ("C", 1)] := by
  refine ⟨fun results => ⟨?_, ?_, ?_, fun c => filter_sortDescBySnd _ c⟩, by decide⟩
  · exact List.Pairwise.sublist (List.take_sublist 5 _) (sortDescBySnd_pairwise _)
  · unfold top_rules
    rw [List.length_take, (sortDescBySnd_perm _).length_eq]
  · intro h
    unfold top_rules
    have hlen : (sortDescBySnd (rule_counts results)).length ≤ 5 := by
      rw [(sortDescBySnd_perm _).length_eq]
      exact h
    rw [List.take_of_length_le hlen]
    exact sortDescBySnd_perm _

/-- C5, witness: the all-entries case instantiated on a one-rule input. -/
theorem claim_C5_witness :
    (top_rules
        [{ tool := "t", issues_count := 1,
           issues := [{ file := "f", line := 1, column := 1, severity := "warning",
                        message := "m", rule := "A" }] }]).Perm
      (rule_counts
        [{ tool := "t", issues_count := 1,
           issues := [{ file := "f", line := 1, column := 1, severity := "warning",
                        message := "m", rule := "A" }] }]) :=
  (claim_C5.1 _).2.2.1 (by decide)

/-- C6: over results with correctly cached counts, `total_issues` counts every
issue — including those whose severity is outside the five known categories —
while `severity_counts` has exactly the five known keys and each bucket counts
only the issues matching its key; hence `total_issues` equals the bucket sum
plus the number of unknown-severity issues. -/
theorem claim_C6 (results : List ToolResult)
    (h : ∀ r ∈ results, r.issues_count = r.issues.length) :
    totalIssues results =
      bucketSum (severity_counts results) +
        (allIssues results).countP (fun i => !(severityKeys.contains i.severity)) ∧
    severity_counts results =
      severityKeys.map (fun s => (s, (allIssues results).countP (fun i => i.severity = s))) ∧
    (severity_counts results).map Prod.fst = severityKeys := by
  refine ⟨?_, severity_counts_eq results, ?_⟩
  · rw [totalIssues_eq_length results h]
    have hb : bucketSum (severity_counts results) =
        (allIssues results).countP (fun i => severityKeys.contains i.severity) := by
      rw [severity_counts_eq]
      unfold bucketSum
      rw [List.map_map]
      exact sum_countP_keys severityKeys _ (by decide)
    rw [hb]
    exact length_countP_split _ _
  · rw [severity_counts_eq, List.map_map]
    rfl

/-- C6, witness: one result with an unknown-severity issue (`"info"`) and a
known one (`"error"`): the total is 2, the buckets sum to 1. -/
theorem claim_C6_witness :
    totalIssues
        [{ tool := "t", issues_count := 2,
           issues := [{ file := "f", line := 1, column := 1, severity := "info",
                        message := "m", rule := "r1" },
                      { file := "f", line := 2, column := 2, severity := "error",
                        message := "m", rule := "r2" }] }] =
      bucketSum (severity_counts
        [{ tool := "t", issues_count := 2,
           issues := [{ file := "f", line := 1, column := 1, severity := "info",
                        message := "m", rule := "r1" },
                      { file := "f", line := 2, column := 2, severity := "error",
                        message := "m", rule := "r2" }] }]) +
        (allIssues
          [{ tool := "t", issues_count := 2,
             issues := [{ file := "f", line := 1, column := 1, severity := "info",
                          message := "m", rule := "r1" },
                        { file := "f", line := 2, column := 2, severity := "error",
                          message := "m", rule := "r2" }] }]).countP
          (fun i => !(severityKeys.contains i.severity)) :=
  (claim_C6 _ (by decide)).1

/-- C7: the concrete line `"/a/b.h:42:7: warning: foo is unused
[bugprone-foo]"` normalizes to line 42, column 7, severity `"warning"` and
rule `"bugprone-foo"`; line and column default to 0 independently on parse
failure of their own token. -/
theorem claim_C7 :
    run_clang_tidy [("/a/b.h", "/a/b.h:42:7: warning: foo is unused [bugprone-foo]")] =
      { tool := "clang-tidy", issues_count := 1,
        issues := [{ file := "/a/b.h", line := 42, column := 7, severity := "warning",
                     message := "/a/b.h:42:7: warning: foo is unused [bugprone-foo]",
                     rule := "bugprone-foo" }] } ∧
    extract_line_number "a:5:x: warning: m" = 5 ∧
    extract_column_number "a:5:x: warning: m" = 0 ∧
    extract_line_number "nocolons" = 0 ∧
    extract_column_number "a:5" = 0 := by
  exact ⟨by decide, by decide, by decide, by decide, by decide⟩

/-- C8: permuting the list of ToolResults preserves `total_issues`, the whole
`severity_counts` table and every `rule_counts` entry, but `top_rules` order
is not permutation-invariant under tied counts: swapping two one-issue
results with distinct rules swaps the tied pair in `top_rules`. -/
theorem claim_C8 :
    (∀ rs1 rs2 : List ToolResult, rs1.Perm rs2 →
      totalIssues rs1 = totalIssues rs2 ∧
      severity_counts rs1 = severity_counts rs2 ∧
      ∀ r, lookupCount (rule_counts rs1) r = lookupCount (rule_counts rs2) r) ∧
    ([({ tool := "t1", issues_count := 1,
         issues := [{ file := "f", line := 1, column := 1, severity := "warning",
                      message := "m", rule := "A" }] } : ToolResult),
      { tool := "t2", issues_count := 1,
        issues := [{ file := "f", line := 2, column := 1, severity := "warning",
                     message := "m", rule := "B" }] }].Perm
      [{ tool := "t2", issues_count := 1,
         issues := [{ file := "f", line := 2, column := 1, severity := "warning",
                      message := "m", rule := "B" }] },
       { tool := "t1", issues_count := 1,
         issues := [{ file := "f", line := 1, column := 1, severity := "warning",
                      message := "m", rule := "A" }] }] ∧
     top_rules
        [{ tool := "t1", issues_count := 1,
           issues := [{ file := "f", line := 1, column := 1, severity := "warning",
                        message := "m", rule := "A" }] },
         { tool := "t2", issues_count := 1,
           issues := [{ file := "f", line := 2, column := 1, severity := "warning",
                        message := "m", rule := "B" }] }] ≠
      top_rules
        [{ tool := "t2", issues_count := 1,
           issues := [{ file := "f", line := 2, column := 1, severity := "warning",
                        message := "m", rule := "B" }] },
         { tool := "t1", issues_count := 1,
           issues := [{ file := "f", line := 1, column := 1, severity := "warning",
                        message := "m", rule := "A" }] }]) := by
  refine ⟨?_, by decide, by decide⟩
  intro rs1 rs2 hperm
  have hall : (allIssues rs1).Perm (allIssues rs2) := by
    unfold allIssues
    exact hperm.flatMap_right ToolResult.issues
  refine ⟨?_, ?_, ?_⟩
  · unfold totalIssues
    exact (hperm.map ToolResult.issues_count).sum_eq
  · rw [severity_counts_eq, severity_counts_eq]
    apply List.map_congr_left
    intro s _
    rw [hall.countP_eq]
  · intro r
    rw [rule_counts_lookup, rule_counts_lookup, hall.countP_eq]

/-- C8, witness: the invariance conclusions instantiated on the swapped
concrete pair. -/
theorem claim_C8_witness :
    totalIssues
        [({ tool := "t1", issues_count := 1,
            issues := [{ file := "f", line := 1, column := 1, severity := "warning",
                         message := "m", rule := "A" }] } : ToolResult),
         { tool := "t2", issues_count := 1,
           issues := [{ file := "f", line := 2, column := 1, severity := "warning",
                        message := "m", rule := "B" }] }] =
      totalIssues
        [{ tool := "t2", issues_count := 1,
           issues := [{ file := "f", line := 2, column := 1, severity := "warning",
                        message := "m", rule := "B" }] },
         { tool := "t1", issues_count := 1,
           issues := [{ file := "f", line := 1, column := 1, severity := "warning",
                        message := "m", rule := "A" }] }] :=
  (claim_C8.1 _ _ (by decide)).1

/-- C9: a document that fails to parse (`ET.ParseError`, modelled by the
`none` outcome of `ET.parse`) makes the structured-document normalizer return
the empty issue list without raising. -/
theorem claim_C9 : parse_cppcheck_xml none = .ok [] := rfl

/-- C10: in a well-formed document, error entries without a `location` child
are silently dropped — processing the found error elements equals processing
only the located ones, and a location-less entry itself yields no record at
all. -/
theorem claim_C10 :
    (∀ root : Elem, parse_cppcheck_xml (some root) =
      parseErrors ((root.findAllDesc "error").filter
        (fun e => (e.findChild "location").isSome))) ∧
    (∀ e : Elem, e.findChild "location" = none → cppcheckIssueOfError e = .ok none) := by
  constructor
  · intro root
    unfold parse_cppcheck_xml
    exact parseErrors_filter _
  · intro e h
    simp [cppcheckIssueOfError, h]

/-- C10, witness: a location-less error entry produces no record. -/
theorem claim_C10_witness :
    cppcheckIssueOfError (Elem.mk "error" [("id", "noloc")] []) = .ok none :=
  claim_C10.2 (Elem.mk "error" [("id", "noloc")] []) rfl

end StaticAnalysis

